import Mathlib

/-
Verification of the control and recovery substrate of the
brazilian_legal_pipeline package: LoopController (loop_controller.py),
the debate loop (agent.py _run_debate), SessionManager (session_manager.py)
and GitStateBackend (git_state.py), shallowly embedded in Lean.

Strings are Lean strings; Python string comparison (code-point
lexicographic) is embedded as a Bool-valued recursion on the underlying
character lists.  The checkpoint directory is embedded as a finite map
from filename to Checkpoint record: writing the JSON serialization of a
checkpoint dataclass and parsing it back with from_dict is the identity
on the dataclass fields, so the file content is modelled by the record
itself.  Timestamps (datetime.now().isoformat()) are threaded as
explicit string arguments to every operation that reads the clock.
-/

namespace LegalPipeline

/-! ## Python string primitives used by the embedded code -/

/-- Python lexicographic string comparison s < t on code points:
a strict prefix is smaller, otherwise the first differing character decides. -/
def charsLt : List Char → List Char → Bool
  | [], [] => false
  | [], _ :: _ => true
  | _ :: _, [] => false
  | a :: as, b :: bs => if a < b then true else if b < a then false else charsLt as bs

/-- Python s < t on strings. -/
def strLt (s t : String) : Bool := charsLt s.data t.data

/-- Python needle-leads test: needle == hay[0:len(needle)]. -/
def leadsWith : List Char → List Char → Bool
  | [], _ => true
  | _ :: _, [] => false
  | a :: as, b :: bs => a = b && leadsWith as bs

/-- Python membership test needle in hay (contiguous substring). -/
def containsSub (needle : List Char) : List Char → Bool
  | [] => leadsWith needle []
  | b :: bs => leadsWith needle (b :: bs) || containsSub needle bs

/-- ASCII uppercasing of one character, as str.upper() acts on the ASCII
range (the approval markers searched for are pure ASCII). -/
def upperChar (c : Char) : Char :=
  if 97 ≤ c.toNat ∧ c.toNat ≤ 122 then Char.ofNat (c.toNat - 32) else c

/-- Python s.upper() restricted to ASCII case mapping. -/
def upperStr (s : String) : String := ⟨s.data.map upperChar⟩

/-- Python s.replace(single char old, single char new). -/
def replaceChar (old new : Char) (s : String) : String :=
  ⟨s.data.map (fun c => if c = old then new else c)⟩

/-! ## loop_controller.py -/

/-- LoopState enum (loop_controller.py lines 17-24). -/
inductive LoopState where
  | idle
  | running
  | paused
  | stopped
  | completed
  | error
  deriving DecidableEq, Repr

/-- Checkpoint dataclass (loop_controller.py lines 27-40).  state_data is
Dict[str, Any]; its values are embedded opaquely as strings, since the code
only copies the dict around. -/
structure Checkpoint where
  iteration : Nat
  phase : String
  state_data : List (String × String)
  timestamp : String
  deriving DecidableEq, Repr

/-- One persisted checkpoint file: filename paired with the record its JSON
content deserializes to. -/
abbrev CheckpointDir := List (String × Checkpoint)

/-- Dictionary lookup. -/
def assocGet {α : Type} (m : List (String × α)) (k : String) : Option α :=
  (m.find? (fun e => e.1 = k)).map Prod.snd

/-- Dictionary store d[k] = v. -/
def assocPut {α : Type} (m : List (String × α)) (k : String) (v : α) : List (String × α) :=
  if m.any (fun e => e.1 = k) then
    m.map (fun e => if e.1 = k then (k, v) else e)
  else
    m ++ [(k, v)]

/-- Dictionary removal del d[k]. -/
def assocDel {α : Type} (m : List (String × α)) (k : String) : List (String × α) :=
  m.filter (fun e => e.1 ≠ k)

/-- Writing a file: an existing file of the same name is overwritten in
place, otherwise the file is added to the directory. -/
def dirWrite (store : CheckpointDir) (fn : String) (cp : Checkpoint) : CheckpointDir :=
  assocPut store fn cp

/-- Reading a file by name (None when absent). -/
def dirRead (store : CheckpointDir) (fn : String) : Option Checkpoint :=
  assocGet store fn

/-- The checkpoint filename built at loop_controller.py line 243:
checkpoint_{timestamp with : replaced by -}.json. -/
def checkpointFilename (ts : String) : String :=
  "checkpoint_" ++ replaceChar ':' '-' ts ++ ".json"

/-- Status payload emitted by _emit_status (loop_controller.py lines
279-295), carrying get_status() as of the emission.  progress_percent is a
float in the source; it is embedded as an exact rational. -/
structure StatusEvent where
  state : LoopState
  current_iteration : Nat
  max_iterations : Nat
  current_phase : String
  progress_percent : ℚ
  last_checkpoint : Option Checkpoint
  error_message : Option String
  deriving DecidableEq, Repr

/-- The mutable fields of a LoopController (loop_controller.py lines
85-102) together with its checkpoint directory and the stream of emitted
status events. -/
structure LC where
  max_iterations : Nat
  checkpoint_interval : Nat
  state : LoopState
  current_iteration : Nat
  current_phase : String
  state_data : List (String × String)
  last_checkpoint : Option Checkpoint
  error_message : Option String
  pause_event_set : Bool
  stop_requested : Bool
  store : CheckpointDir
  events : List StatusEvent
  deriving DecidableEq, Repr

/-- LoopController.__init__ (lines 77-105): idle, iteration 0, phase
"init", gate open, stop flag clear. -/
def initLC (maxIter interval : Nat) : LC :=
  { max_iterations := maxIter
    checkpoint_interval := interval
    state := .idle
    current_iteration := 0
    current_phase := "init"
    state_data := []
    last_checkpoint := none
    error_message := none
    pause_event_set := true
    stop_requested := false
    store := []
    events := [] }

/-- get_status (lines 133-144): progress = iteration / max * 100 when
max > 0 else 0, clamped by min(progress, 100). -/
def getStatus (c : LC) : StatusEvent :=
  let progress : ℚ :=
    if 0 < c.max_iterations then
      ((c.current_iteration : ℚ) / (c.max_iterations : ℚ)) * 100
    else 0
  { state := c.state
    current_iteration := c.current_iteration
    max_iterations := c.max_iterations
    current_phase := c.current_phase
    progress_percent := min progress 100
    last_checkpoint := c.last_checkpoint
    error_message := c.error_message }

/-- _emit_status (lines 279-295): prints one status payload to stdout,
embedded as appending it to the event stream. -/
def emitStatus (c : LC) : LC :=
  { c with events := c.events ++ [getStatus c] }

/-- _save_checkpoint (lines 232-250): build a Checkpoint from the current
fields and the current wall-clock timestamp, remember it as
last_checkpoint, and write it under the timestamp-derived filename. -/
def saveCheckpoint (c : LC) (ts : String) : LC :=
  let cp : Checkpoint :=
    { iteration := c.current_iteration
      phase := c.current_phase
      state_data := c.state_data
      timestamp := ts }
  { c with
      last_checkpoint := some cp
      store := dirWrite c.store (checkpointFilename ts) cp }

/-- pause (lines 146-152): only from running; close the gate, emit, then
write a checkpoint. -/
def pauseLC (c : LC) (ts : String) : LC :=
  if c.state = .running then
    saveCheckpoint (emitStatus { c with state := .paused, pause_event_set := false }) ts
  else c

/-- resume (lines 154-159): only from paused; open the gate and emit. -/
def resumeLC (c : LC) : LC :=
  if c.state = .paused then
    emitStatus { c with state := .running, pause_event_set := true }
  else c

/-- stop (lines 161-165): set the stop flag, open the gate, write a
checkpoint.  The state field is not touched and nothing is emitted. -/
def stopLC (c : LC) (ts : String) : LC :=
  saveCheckpoint { c with stop_requested := true, pause_event_set := true } ts

/-- set_phase (lines 171-174). -/
def setPhaseLC (c : LC) (phase : String) : LC :=
  emitStatus { c with current_phase := phase }

/-- should_stop (lines 180-182). -/
def shouldStop (c : LC) : Bool := c.stop_requested

/-- should_continue (lines 184-189). -/
def shouldContinue (c : LC) : Bool :=
  !c.stop_requested && decide (c.current_iteration < c.max_iterations)

/-- wait_if_paused blocks exactly while the pause event is unset; the
caller is blocked when this is true. -/
def waitBlocked (c : LC) : Bool := !c.pause_event_set

/-- iterate (lines 191-211).  The initial await wait_if_paused() suspends
the caller while the gate is closed, embedded as the None outcome (the
call does not complete and the controller is unchanged).  Once past the
gate: with the stop flag set, move to stopped and return the -1 sentinel;
otherwise increment the iteration, write a periodic checkpoint when the
new count is a multiple of checkpoint_interval, emit a status event and
return the new count.  (checkpoint_interval = 0 raises ZeroDivisionError
in Python and is outside this model; every theorem below assumes a
positive interval.) -/
def iterateLC (c : LC) (ts : String) : Option (LC × Int) :=
  if c.pause_event_set = false then none
  else if shouldStop c then some ({ c with state := .stopped }, -1)
  else
    let c1 := { c with current_iteration := c.current_iteration + 1 }
    let c2 :=
      if c1.current_iteration % c.checkpoint_interval = 0 then saveCheckpoint c1 ts else c1
    some (emitStatus c2, (c1.current_iteration : Int))

/-- start (lines 213-218): running, stop flag cleared, iteration reset. -/
def startLC (c : LC) : LC :=
  emitStatus { c with state := .running, stop_requested := false, current_iteration := 0 }

/-- complete (lines 220-224): completed or error by the success flag, a
final checkpoint, then emit.  The error_message field is not touched. -/
def completeLC (c : LC) (success : Bool) (ts : String) : LC :=
  emitStatus (saveCheckpoint { c with state := if success then .completed else .error } ts)

/-- set_error (lines 226-230): record the message, move to error, emit. -/
def setErrorLC (c : LC) (msg : String) : LC :=
  emitStatus { c with error_message := some msg, state := .error }

/-! ### Operation sequences over a controller

External control calls and the driver's own calls interleave as one
sequence of operations.  A blocked iterate (gate closed) does not
complete and leaves the controller unchanged; it re-runs as a later
iterate operation once resume or stop has opened the gate, so sequences
over applyOp cover every interleaving of the source. -/

/-- One operation of the defined operation set, with the wall-clock
timestamp the operation would read where it saves a checkpoint. -/
inductive LoopOp where
  | start
  | pause (ts : String)
  | resume
  | stop (ts : String)
  | setPhase (phase : String)
  | iterate (ts : String)
  | complete (success : Bool) (ts : String)
  | setError (msg : String)
  deriving DecidableEq, Repr

/-- Effect of one operation on the controller. -/
def applyOp (c : LC) : LoopOp → LC
  | .start => startLC c
  | .pause ts => pauseLC c ts
  | .resume => resumeLC c
  | .stop ts => stopLC c ts
  | .setPhase phase => setPhaseLC c phase
  | .iterate ts =>
    match iterateLC c ts with
    | none => c
    | some (c2, _) => c2
  | .complete success ts => completeLC c success ts
  | .setError msg => setErrorLC c msg

/-- A whole call sequence. -/
def runOps (c : LC) (ops : List LoopOp) : LC := ops.foldl applyOp c

/-! ### Loading checkpoints back -/

/-- load_checkpoint (loop_controller.py lines 252-266): read the file,
rebuild the Checkpoint from its dict, restore iteration, phase and
state_data into the controller and remember it as last_checkpoint.  None
when the file does not exist. -/
def loadCheckpoint (c : LC) (fn : String) : Option (LC × Checkpoint) :=
  match dirRead c.store fn with
  | none => none
  | some cp =>
    some
      ({ c with
          current_iteration := cp.iteration
          current_phase := cp.phase
          state_data := cp.state_data
          last_checkpoint := some cp },
       cp)

/-- sorted(paths, reverse=True)[0] over the checkpoint filenames: the
lexicographically greatest filename in the directory (every file written
by _save_checkpoint matches the glob checkpoint_*.json).  None for an
empty directory. -/
def maxFilename : CheckpointDir → Option String
  | [] => none
  | e :: es => some (es.foldl (fun best x => if strLt best x.1 then x.1 else best) e.1)

/-- load_latest_checkpoint (loop_controller.py lines 268-277): None when
there are no checkpoint files, otherwise load the file whose name sorts
last. -/
def loadLatestCheckpoint (c : LC) : Option (LC × Checkpoint) :=
  match maxFilename c.store with
  | none => none
  | some fn => loadCheckpoint c fn

/-! ### Filesystem trace of the checkpoint save

_save_checkpoint (loop_controller.py lines 241-246) as the sequence of
filesystem operations it performs, to settle whether the write is atomic
(write to a temporary name, then rename onto the final name). -/

/-- Filesystem operations appearing in the save path. -/
inductive FsOp where
  | mkdirParents (dir : String)
  | openTruncate (path : String)
  | writeData (path : String)
  | rename (src dst : String)
  deriving DecidableEq, Repr

/-- True for rename operations. -/
def FsOp.isRenameOp : FsOp → Bool
  | .rename _ _ => true
  | _ => false

/-- The filesystem trace of _save_checkpoint: mkdir(parents=True,
exist_ok=True) on the checkpoint directory, then open(checkpoint_file,
"w") which creates or truncates the final name, then json.dump into it.
No other filesystem call occurs in the function. -/
def saveCheckpointTrace (dir ts : String) : List FsOp :=
  let path := dir ++ "/" ++ checkpointFilename ts
  [.mkdirParents dir, .openTruncate path, .writeData path]

/-- The atomic write-to-temp-then-rename discipline for a final path:
some temporary path distinct from the final one receives the open and the
data, a rename moves it onto the final path, and the final path itself is
never opened for writing directly. -/
def atomicTempRename (ops : List FsOp) (finalPath : String) : Prop :=
  (∃ tmp, tmp ≠ finalPath ∧
    FsOp.openTruncate tmp ∈ ops ∧ FsOp.writeData tmp ∈ ops ∧
    FsOp.rename tmp finalPath ∈ ops) ∧
  FsOp.openTruncate finalPath ∉ ops

/-! ## agent.py _run_debate -/

/-- One entry of DebateResult.agent_outputs (agent.py lines 577-581 and
603-607), with the 2000-character truncation applied on append. -/
structure AgentOutput where
  agent : String
  iteration : Nat
  output : String
  deriving DecidableEq, Repr

/-- DebateResult (agent.py dataclass, fields as set in _run_debate). -/
structure DebateResult where
  phase : String
  iterations : Nat
  converged : Bool
  final_output : String
  agent_outputs : List AgentOutput
  exit_reason : String
  deriving DecidableEq, Repr

/-- The approval test at agent.py lines 614-615: any of the three
indicators contained in adversarial_output.upper(). -/
def approvalSignal (s : String) : Bool :=
  containsSub "APROVADO".data (upperStr s).data ||
  containsSub "approved".data (upperStr s).data ||
  containsSub "aprovado".data (upperStr s).data

/-- Case-insensitive presence of the designated approval marker APROVADO,
the approval signal named by the specification. -/
def containsMarkerCI (s : String) : Bool :=
  containsSub "APROVADO".data (upperStr s).data

/-- Truncation applied when recording an output (output[:2000]). -/
def truncOut (s : String) : String := ⟨s.data.take 2000⟩

/-- The body of round i before the approval test (agent.py lines
555-611): record the constructive output and the adversarial output
(truncated to 2000 characters) and set result.iterations to the round
number. -/
def debateRound (names : String × String) (cons adv : Nat → String) (i : Nat)
    (r : DebateResult) : DebateResult :=
  { r with
      agent_outputs := r.agent_outputs ++
        [{ agent := names.1, iteration := i, output := truncOut (cons i) },
         { agent := names.2, iteration := i, output := truncOut (adv i) }],
      iterations := i }

/-- The for-loop of _run_debate (agent.py lines 552-619), over the
sequence of outputs the two opaque actors produce round by round: i is
the round about to run, remaining the rounds left before the cap, r the
DebateResult being mutated.  Each round runs debateRound, and on an
approval signal in the adversarial output marks convergence and breaks.
Returns the result together with the final value of the
constructive_output variable. -/
def debateGo (names : String × String) (cons adv : Nat → String) :
    Nat → Nat → DebateResult → String → DebateResult × String
  | _, 0, r, lastCons => (r, lastCons)
  | i, remaining + 1, r, _ =>
    if approvalSignal (adv i) then
      ({ debateRound names cons adv i r with converged := true, exit_reason := "approved" },
       cons i)
    else
      debateGo names cons adv (i + 1) remaining (debateRound names cons adv i r) (cons i)

/-- The code after the loop (agent.py lines 621-626): when the loop ended
without convergence set exit_reason to max_iterations, then set
final_output to the last constructive output produced. -/
def finishDebate (p : DebateResult × String) : DebateResult :=
  { (if p.1.converged then p.1 else { p.1 with exit_reason := "max_iterations" }) with
      final_output := p.2 }

/-- The DebateResult as initialized at agent.py lines 537-544. -/
def initDebateResult (phase : String) : DebateResult :=
  { phase := phase
    iterations := 0
    converged := false
    final_output := ""
    agent_outputs := []
    exit_reason := "" }

/-- _run_debate (agent.py lines 520-626) for a phase: start from the
zeroed DebateResult, run the rounds 1..maxDebateIterations, and apply the
post-loop fixups. -/
def runDebate (phase : String) (names : String × String) (maxIter : Nat)
    (cons adv : Nat → String) : DebateResult :=
  finishDebate (debateGo names cons adv 1 maxIter (initDebateResult phase) "")

/-! ## git_state.py GitStateBackend.commit -/

/-- The host environment a commit call runs against: whether the git
binary is available (checked in __init__), whether git status --porcelain
reports anything after git add -A, and the outcome of the commit command
itself — some hash (the rev-parse HEAD result) on success, none when the
commit or rev-parse subprocess exits nonzero (CalledProcessError).  The
outcome may depend on the full commit message. -/
structure GitEnv where
  available : Bool
  has_changes_after_add : Bool
  commit_cmd : String → Option String

/-- has_changes (git_state.py lines 138-144) after the add_all call. -/
def gitHasChanges (env : GitEnv) : Bool :=
  env.available && env.has_changes_after_add

/-- The message-prefix construction of commit (git_state.py lines
166-174): [AUTO], [PHASE-upper], [AUTO/PHASE-upper] or no tag. -/
def commitMessage (message : String) (auto : Bool) (phase : Option String) : String :=
  let parts : List String :=
    (if auto then ["AUTO"] else []) ++
    (match phase with
     | some p => [upperStr p]
     | none => [])
  let tag := if parts.isEmpty then "" else "[" ++ String.intercalate "/" parts ++ "] "
  tag ++ message

/-- commit (git_state.py lines 146-188): None when git is unavailable;
stage everything; None when nothing is left to commit; then run the
commit command under try, returning the new hash, with CalledProcessError
caught and turned into None.  All exception paths of the function are
caught, so it is a total Option-valued function. -/
def gitCommit (env : GitEnv) (message : String) (auto : Bool) (phase : Option String) :
    Option String :=
  if env.available = false then none
  else
    let fullMessage := commitMessage message auto phase
    if gitHasChanges env = false then none
    else env.commit_cmd fullMessage

/-! ## session_manager.py SessionManager -/

/-- SessionInfo dataclass (session_manager.py lines 19-39); case_path is
kept as its string form. -/
structure SessionInfo where
  session_id : String
  case_id : String
  case_path : String
  created_at : String
  status : String
  last_checkpoint : Option String
  git_commit : Option String
  deriving DecidableEq, Repr

/-- PipelineResultSummary dataclass (session_manager.py lines 42-52);
duration_seconds is a float in the source and is threaded through as an
opaque rational. -/
structure PipelineResultSummary where
  success : Bool
  phases_completed : List String
  output_path : Option String
  error : Option String
  duration_seconds : ℚ
  deriving DecidableEq, Repr

/-- The SessionManager state (session_manager.py lines 69-72): the
in-memory session registry and the session_id -> pipeline map, plus the
descriptor files written by _save_session_file, keyed by case_path.
Pipeline objects are identified by an id. -/
structure SMState where
  active_sessions : List (String × SessionInfo)
  pipelines : List (String × Nat)
  session_files : List (String × SessionInfo)
  deriving DecidableEq, Repr

/-- _save_session_file (session_manager.py lines 138-142): persist the
descriptor into the workspace. -/
def saveSessionFile (m : SMState) (s : SessionInfo) : SMState :=
  { m with session_files := assocPut m.session_files s.case_path s }

/-- What the try-block of run_pipeline produces, abstracting the pipeline
object, save_results and the git commit: either the data the success path
reads, or the exception message e that reaches the except handler. -/
inductive PipelineOutcome where
  | finished (success : Bool) (verification construction drafting synthesis : Bool)
             (outputPath : Option String) (gitAvailable : Bool) (gitHash : Option String)
  | raised (msg : String)

/-- run_pipeline (session_manager.py lines 246-359).  A missing session id
raises KeyError before the try-block (embedded as the error branch, which
propagates to the caller).  Otherwise the pipeline is registered under the
session id — with no check that a pipeline is already registered there —
and the try-block runs: on normal completion the session status becomes
completed or error by the result's success flag and the summary carries
the phase list; on an exception the handler sets status error, persists
the descriptor and returns a failure summary.  The finally-block drops
the pipeline registration in both cases. -/
def runPipeline (m : SMState) (sessionId : String) (pipelineId : Nat)
    (outcome : PipelineOutcome) (duration : ℚ) :
    Except String (SMState × PipelineResultSummary) :=
  match assocGet m.active_sessions sessionId with
  | none => .error ("Sessao nao encontrada: " ++ sessionId)
  | some session =>
    let m1 : SMState := { m with pipelines := assocPut m.pipelines sessionId pipelineId }
    match outcome with
    | .finished success verification construction drafting synthesis outputPath
        gitAvailable gitHash =>
      let session1 :=
        if gitAvailable then { session with git_commit := gitHash } else session
      let session2 := { session1 with status := if success then "completed" else "error" }
      let m2 := { m1 with active_sessions := assocPut m1.active_sessions sessionId session2 }
      let m3 := saveSessionFile m2 session2
      let phases :=
        ["intake"] ++
        (if verification then ["verification"] else []) ++
        (if construction then ["construction"] else []) ++
        (if drafting then ["drafting"] else []) ++
        (if synthesis then ["synthesis"] else [])
      let summary : PipelineResultSummary :=
        { success := success
          phases_completed := phases
          output_path := outputPath
          error := none
          duration_seconds := duration }
      let m4 := { m3 with pipelines := assocDel m3.pipelines sessionId }
      .ok (m4, summary)
    | .raised msg =>
      let session2 := { session with status := "error" }
      let m2 := { m1 with active_sessions := assocPut m1.active_sessions sessionId session2 }
      let m3 := saveSessionFile m2 session2
      let summary : PipelineResultSummary :=
        { success := false
          phases_completed := []
          output_path := none
          error := some msg
          duration_seconds := duration }
      let m4 := { m3 with pipelines := assocDel m3.pipelines sessionId }
      .ok (m4, summary)

/-- True exactly for the setError operation. -/
def LoopOp.isSetErrorOp : LoopOp → Bool
  | .setError _ => true
  | _ => false

/-- Reachability from a state by the defined operation set, with every
iterate performed only while should_continue() holds — the guard the
pipeline driver is expected to check before advancing. -/
inductive GuardedReach : LC → LC → Prop where
  | refl (c : LC) : GuardedReach c c
  | step {a c : LC} (op : LoopOp) :
      GuardedReach a c →
      (∀ ts, op = .iterate ts → shouldContinue c = true) →
      GuardedReach a (applyOp c op)

/-- ASCII lowercase test. -/
def isLowerAscii (c : Char) : Bool :=
  decide (97 ≤ c.toNat) && decide (c.toNat ≤ 122)

/-- The character substitution of line 243: replace ':' by '-'. -/
def colonMap (c : Char) : Char := if c = ':' then '-' else c

/-- Two character lists of equal length whose colons sit at the same
positions — as any two datetime.isoformat() outputs of equal length do. -/
def colonsAligned : List Char → List Char → Bool
  | [], [] => true
  | a :: as, b :: bs => (decide (a = ':') == decide (b = ':')) && colonsAligned as bs
  | _, _ => false

/-! ## Association-list lemmas -/

theorem find?_map_put {α : Type} (m : List (String × α)) (k : String) (v : α) :
    (m.map (fun e => if e.1 = k then (k, v) else e)).find? (fun e => e.1 = k) =
      if m.any (fun e => e.1 = k) then some (k, v) else none := by
  induction m with
  | nil => simp
  | cons e es ih =>
    by_cases he : e.1 = k
    · simp [he, List.find?]
    · simp only [List.map_cons, List.any_cons, he, if_neg he, Bool.false_or,
        decide_eq_true_eq]
      rw [List.find?_cons_of_neg _ (by simpa using he)]
      simpa using ih

theorem assocGet_assocPut_self {α : Type} (m : List (String × α)) (k : String) (v : α) :
    assocGet (assocPut m k v) k = some v := by
  unfold assocGet assocPut
  by_cases h : m.any (fun e => e.1 = k)
  · rw [if_pos h, find?_map_put, if_pos h]
    rfl
  · rw [if_neg h, List.find?_append]
    have hnone : m.find? (fun e => decide (e.1 = k)) = none := by
      rw [List.find?_eq_none]
      intro x hx
      simp only [Bool.not_eq_true, decide_eq_false_iff_not]
      intro hk
      exact h (List.any_eq_true.mpr ⟨x, hx, by simpa using hk⟩)
    simp [hnone]

theorem assocGet_assocDel_self {α : Type} (m : List (String × α)) (k : String) :
    assocGet (assocDel m k) k = none := by
  unfold assocGet assocDel
  have : (m.filter (fun e => e.1 ≠ k)).find? (fun e => decide (e.1 = k)) = none := by
    rw [List.find?_eq_none]
    intro x hx
    have := List.of_mem_filter hx
    simpa using this
  simp [this]

theorem assocGet_of_mem_nodup {α : Type} (m : List (String × α)) (k : String) (v : α)
    (hnd : (m.map Prod.fst).Nodup) (hmem : (k, v) ∈ m) :
    assocGet m k = some v := by
  induction m with
  | nil => simp at hmem
  | cons e es ih =>
    simp only [List.map_cons, List.nodup_cons] at hnd
    rcases List.mem_cons.mp hmem with heq | htail
    · subst heq
      simp [assocGet, List.find?]
    · by_cases he : e.1 = k
      · exact absurd (by simpa [he] using List.mem_map_of_mem Prod.fst htail) hnd.1
      · unfold assocGet
        rw [List.find?_cons_of_neg _ (by simpa using he)]
        exact ih hnd.2 htail

/-! ## Invariant-style facts about the controller -/

theorem iterateLC_blocked (c : LC) (ts : String) (h : c.pause_event_set = false) :
    iterateLC c ts = none := by
  simp [iterateLC, h]

theorem iterateLC_stopflag (c : LC) (ts : String) (hp : c.pause_event_set = true)
    (hs : c.stop_requested = true) :
    iterateLC c ts = some ({ c with state := .stopped }, -1) := by
  simp [iterateLC, hp, shouldStop, hs]

theorem iterateLC_advance (c : LC) (ts : String) (hp : c.pause_event_set = true)
    (hs : c.stop_requested = false) :
    iterateLC c ts =
      some (emitStatus
              (if (c.current_iteration + 1) % c.checkpoint_interval = 0 then
                saveCheckpoint { c with current_iteration := c.current_iteration + 1 } ts
              else
                { c with current_iteration := c.current_iteration + 1 }),
            ((c.current_iteration + 1 : Nat) : Int)) := by
  simp [iterateLC, hp, shouldStop, hs]

theorem applyOp_error_message (c : LC) (op : LoopOp) (h : op.isSetErrorOp = false) :
    (applyOp c op).error_message = c.error_message := by
  cases op with
  | start => rfl
  | pause ts =>
    simp only [applyOp, pauseLC]
    split <;> rfl
  | resume =>
    simp only [applyOp, resumeLC]
    split <;> rfl
  | stop ts => rfl
  | setPhase p => rfl
  | iterate ts =>
    simp only [applyOp]
    rcases hp : c.pause_event_set with _ | _
    · rw [iterateLC_blocked c ts hp]
    · rcases hs : c.stop_requested with _ | _
      · rw [iterateLC_advance c ts hp hs]
        dsimp only
        by_cases hm : (c.current_iteration + 1) % c.checkpoint_interval = 0
        · rw [if_pos hm]
          rfl
        · rw [if_neg hm]
          rfl
      · rw [iterateLC_stopflag c ts hp hs]
  | complete s ts => rfl
  | setError msg => simp [LoopOp.isSetErrorOp] at h

theorem applyOp_max_iterations (c : LC) (op : LoopOp) :
    (applyOp c op).max_iterations = c.max_iterations := by
  cases op with
  | start => rfl
  | pause ts =>
    simp only [applyOp, pauseLC]
    split <;> rfl
  | resume =>
    simp only [applyOp, resumeLC]
    split <;> rfl
  | stop ts => rfl
  | setPhase p => rfl
  | iterate ts =>
    simp only [applyOp]
    rcases hp : c.pause_event_set with _ | _
    · rw [iterateLC_blocked c ts hp]
    · rcases hs : c.stop_requested with _ | _
      · rw [iterateLC_advance c ts hp hs]
        dsimp only
        by_cases hm : (c.current_iteration + 1) % c.checkpoint_interval = 0
        · rw [if_pos hm]
          rfl
        · rw [if_neg hm]
          rfl
      · rw [iterateLC_stopflag c ts hp hs]
  | complete s ts => rfl
  | setError msg => rfl

theorem runOps_error_message_none (ops : List LoopOp) :
    ∀ c : LC, c.error_message = none → (∀ op ∈ ops, op.isSetErrorOp = false) →
      (runOps c ops).error_message = none := by
  induction ops with
  | nil => intro c hc _; exact hc
  | cons op ops ih =>
    intro c hc hops
    have h1 : (applyOp c op).error_message = none := by
      rw [applyOp_error_message c op (hops op (List.mem_cons_self op ops))]
      exact hc
    exact ih (applyOp c op) h1 (fun o ho => hops o (List.mem_cons_of_mem op ho))

/-- Claim C6, counterexample: after start() followed by complete(False),
the controller is in state Error yet errorMessage is absent, so the
LoopStatus invariant "errorMessage is present iff state = Error" is not
preserved by the operation set. -/
theorem c6_counterexample :
    ¬ (let c := runOps (initLC 10 1) [.start, .complete false "2026-01-01T12:00:00"]
       (c.error_message ≠ none ↔ c.state = LoopState.error)) := by
  decide

/-- Claim C6, amended: errorMessage is absent in the initial state and
stays absent under any sequence of the defined operations that never
calls setError — complete(false) reaches state Error without recording a
message, so only the setError-free half of the iff survives — and
setError itself establishes the invariant: it records the message and
moves the state to Error. -/
theorem c6_error_message_only_from_setError (m i : Nat) (ops : List LoopOp)
    (hops : ∀ op ∈ ops, op.isSetErrorOp = false) :
    (runOps (initLC m i) ops).error_message = none ∧
    (∀ c : LC, ∀ msg : String,
      (setErrorLC c msg).error_message = some msg ∧ (setErrorLC c msg).state = LoopState.error) := by
  constructor
  · exact runOps_error_message_none ops (initLC m i) rfl hops
  · intro c msg
    exact ⟨rfl, rfl⟩

/-- Claim C6, witness for the amended theorem at a concrete
setError-free operation sequence. -/
theorem c6_witness :
    (runOps (initLC 10 1) [.start, .iterate "t1", .complete false "t2"]).error_message = none ∧
    (∀ c : LC, ∀ msg : String,
      (setErrorLC c msg).error_message = some msg ∧ (setErrorLC c msg).state = LoopState.error) :=
  c6_error_message_only_from_setError 10 1 [.start, .iterate "t1", .complete false "t2"]
    (by intro op hop; fin_cases hop <;> rfl)

/-- Claim C7, counterexample: with maxIterations = 1, the sequence
start(); iterate(); iterate() leaves currentIteration = 2 >
maxIterations = 1 — iterate() increments unconditionally and never
checks the bound, so the invariant fails on the unrestricted operation
set. -/
theorem c7_counterexample :
    ¬ (let c := runOps (initLC 1 1) [.start, .iterate "t1", .iterate "t2"]
       c.current_iteration ≤ c.max_iterations) := by
  decide

theorem guardedStep_invariant (c : LC) (op : LoopOp)
    (hguard : ∀ ts, op = .iterate ts → shouldContinue c = true)
    (hinv : c.current_iteration ≤ c.max_iterations) :
    (applyOp c op).current_iteration ≤ (applyOp c op).max_iterations := by
  rw [applyOp_max_iterations]
  cases op with
  | start => simp [applyOp, startLC, emitStatus]
  | pause ts =>
    simp only [applyOp, pauseLC]
    split
    · simpa [saveCheckpoint, emitStatus] using hinv
    · exact hinv
  | resume =>
    simp only [applyOp, resumeLC]
    split
    · simpa [emitStatus] using hinv
    · exact hinv
  | stop ts => simpa [applyOp, stopLC, saveCheckpoint] using hinv
  | setPhase p => simpa [applyOp, setPhaseLC, emitStatus] using hinv
  | iterate ts =>
    have hcont : shouldContinue c = true := hguard ts rfl
    have hstop : c.stop_requested = false := by
      rcases h : c.stop_requested with _ | _
      · rfl
      · simp [shouldContinue, h] at hcont
    have hlt : c.current_iteration < c.max_iterations := by
      rcases Nat.lt_or_ge c.current_iteration c.max_iterations with h | h
      · exact h
      · exfalso
        simp [shouldContinue, Nat.not_lt.mpr h] at hcont
    simp only [applyOp]
    rcases hp : c.pause_event_set with _ | _
    · rw [iterateLC_blocked c ts hp]
      exact hinv
    · rw [iterateLC_advance c ts hp hstop]
      dsimp only
      split
      · simpa [saveCheckpoint, emitStatus] using hlt
      · simpa [emitStatus] using hlt
  | complete s ts => simpa [applyOp, completeLC, saveCheckpoint, emitStatus] using hinv
  | setError msg => simpa [applyOp, setErrorLC, emitStatus] using hinv

/-- Claim C7, amended: currentIteration ≤ maxIterations does hold in
every state reachable from the initial state by the defined operations
when each iterate() is performed only while should_continue() is true —
the guard the driver is meant to poll — but iterate() itself enforces no
bound, so the invariant fails on unguarded sequences (see the
counterexample). -/
theorem c7_guarded_iteration_bound (m i : Nat) (c : LC)
    (h : GuardedReach (initLC m i) c) :
    c.current_iteration ≤ c.max_iterations := by
  induction h with
  | refl => exact Nat.zero_le _
  | step op _ hguard ih => exact guardedStep_invariant _ op hguard ih

/-- Claim C7, witness: a concrete guarded run — start then one guarded
iterate on a controller with maxIterations = 2 — satisfies the bound. -/
theorem c7_witness :
    GuardedReach (initLC 2 1) (applyOp (applyOp (initLC 2 1) .start) (.iterate "t1")) ∧
    (applyOp (applyOp (initLC 2 1) .start) (.iterate "t1")).current_iteration ≤
      (applyOp (applyOp (initLC 2 1) .start) (.iterate "t1")).max_iterations := by
  have h1 : GuardedReach (initLC 2 1) (applyOp (initLC 2 1) .start) :=
    GuardedReach.step .start (GuardedReach.refl _) (by intro ts h; cases h)
  have h2 : GuardedReach (initLC 2 1)
      (applyOp (applyOp (initLC 2 1) .start) (.iterate "t1")) :=
    GuardedReach.step (.iterate "t1") h1 (by intro ts _; decide)
  exact ⟨h2, c7_guarded_iteration_bound 2 1 _ h2⟩

/-- Claim C8: stop() sets the stop flag (and a second stop leaves it and
the gate exactly as the first did), unconditionally opens the pause gate
so no waitIfPaused() caller is or stays blocked, writes a checkpoint of
the current iteration/phase/state-data under the timestamp-derived
filename, and leaves the state field unchanged — for every prior
controller state. -/
theorem c8_stop_behavior (c : LC) (ts ts2 : String) :
    (stopLC c ts).stop_requested = true ∧
    (stopLC c ts).pause_event_set = true ∧
    waitBlocked (stopLC c ts) = false ∧
    (stopLC c ts).state = c.state ∧
    (stopLC (stopLC c ts) ts2).stop_requested = true ∧
    (stopLC (stopLC c ts) ts2).pause_event_set = true ∧
    (stopLC (stopLC c ts) ts2).state = c.state ∧
    (stopLC c ts).last_checkpoint =
      some { iteration := c.current_iteration, phase := c.current_phase,
             state_data := c.state_data, timestamp := ts } ∧
    dirRead (stopLC c ts).store (checkpointFilename ts) =
      some { iteration := c.current_iteration, phase := c.current_phase,
             state_data := c.state_data, timestamp := ts } := by
  refine ⟨rfl, rfl, rfl, rfl, rfl, rfl, rfl, rfl, ?_⟩
  simpa [stopLC, saveCheckpoint, dirRead, dirWrite] using
    assocGet_assocPut_self c.store (checkpointFilename ts)
      { iteration := c.current_iteration, phase := c.current_phase,
        state_data := c.state_data, timestamp := ts }

/-- Claim C3: iterate() first waits on the pause gate (while the gate is
closed the call does not complete and nothing changes); once past the
gate, if the stop flag is set it moves the state to Stopped and returns
the -1 sentinel without incrementing; otherwise it increments
currentIteration by one, writes a checkpoint exactly when the new count
is a multiple of checkpointInterval (leaving the store untouched
otherwise), emits one status event carrying the new count, and returns
the new iteration number.  checkpoint_interval = 0 would raise
ZeroDivisionError in the source, hence the positivity hypothesis. -/
theorem c3_iterate_behavior (c : LC) (ts : String) (_hint : 0 < c.checkpoint_interval) :
    (c.pause_event_set = false → iterateLC c ts = none) ∧
    (c.pause_event_set = true → c.stop_requested = true →
      iterateLC c ts = some ({ c with state := LoopState.stopped }, -1)) ∧
    (c.pause_event_set = true → c.stop_requested = false →
      ∃ c2, iterateLC c ts = some (c2, ((c.current_iteration + 1 : Nat) : Int)) ∧
        c2.current_iteration = c.current_iteration + 1 ∧
        c2.state = c.state ∧
        ((c.current_iteration + 1) % c.checkpoint_interval = 0 →
          dirRead c2.store (checkpointFilename ts) =
            some { iteration := c.current_iteration + 1, phase := c.current_phase,
                   state_data := c.state_data, timestamp := ts } ∧
          c2.last_checkpoint =
            some { iteration := c.current_iteration + 1, phase := c.current_phase,
                   state_data := c.state_data, timestamp := ts }) ∧
        ((c.current_iteration + 1) % c.checkpoint_interval ≠ 0 →
          c2.store = c.store ∧ c2.last_checkpoint = c.last_checkpoint) ∧
        (∃ ev, c2.events = c.events ++ [ev] ∧
          ev.current_iteration = c.current_iteration + 1 ∧ ev.state = c.state)) := by
  refine ⟨fun hp => iterateLC_blocked c ts hp,
          fun hp hs => iterateLC_stopflag c ts hp hs,
          fun hp hs => ?_⟩
  rw [iterateLC_advance c ts hp hs]
  by_cases hm : (c.current_iteration + 1) % c.checkpoint_interval = 0
  · rw [if_pos hm]
    refine ⟨_, rfl, rfl, rfl, fun _ => ⟨?_, rfl⟩, fun hne => absurd hm hne, ?_⟩
    · simpa [saveCheckpoint, emitStatus, dirRead, dirWrite] using
        assocGet_assocPut_self c.store (checkpointFilename ts)
          { iteration := c.current_iteration + 1, phase := c.current_phase,
            state_data := c.state_data, timestamp := ts }
    · exact ⟨_, rfl, rfl, rfl⟩
  · rw [if_neg hm]
    exact ⟨_, rfl, rfl, rfl, fun h => absurd h hm, fun _ => ⟨rfl, rfl⟩,
      ⟨_, rfl, rfl, rfl⟩⟩

/-- Claim C3, witness: a freshly started controller with
checkpointInterval = 2 satisfies the positivity hypothesis. -/
theorem c3_witness :
    0 < (startLC (initLC 5 2)).checkpoint_interval ∧
    ((startLC (initLC 5 2)).pause_event_set = true →
      (startLC (initLC 5 2)).stop_requested = false →
      ∃ c2, iterateLC (startLC (initLC 5 2)) "t1" =
          some (c2, (((startLC (initLC 5 2)).current_iteration + 1 : Nat) : Int)) ∧
        c2.current_iteration = (startLC (initLC 5 2)).current_iteration + 1 ∧
        c2.state = (startLC (initLC 5 2)).state ∧
        (((startLC (initLC 5 2)).current_iteration + 1) %
            (startLC (initLC 5 2)).checkpoint_interval = 0 →
          dirRead c2.store (checkpointFilename "t1") =
            some { iteration := (startLC (initLC 5 2)).current_iteration + 1,
                   phase := (startLC (initLC 5 2)).current_phase,
                   state_data := (startLC (initLC 5 2)).state_data, timestamp := "t1" } ∧
          c2.last_checkpoint =
            some { iteration := (startLC (initLC 5 2)).current_iteration + 1,
                   phase := (startLC (initLC 5 2)).current_phase,
                   state_data := (startLC (initLC 5 2)).state_data, timestamp := "t1" }) ∧
        (((startLC (initLC 5 2)).current_iteration + 1) %
            (startLC (initLC 5 2)).checkpoint_interval ≠ 0 →
          c2.store = (startLC (initLC 5 2)).store ∧
          c2.last_checkpoint = (startLC (initLC 5 2)).last_checkpoint) ∧
        (∃ ev, c2.events = (startLC (initLC 5 2)).events ++ [ev] ∧
          ev.current_iteration = (startLC (initLC 5 2)).current_iteration + 1 ∧
          ev.state = (startLC (initLC 5 2)).state)) :=
  ⟨by decide, (c3_iterate_behavior (startLC (initLC 5 2)) "t1" (by decide)).2.2⟩

/-- Claim C4, counterexample: the save path of _save_checkpoint opens the
final checkpoint filename for writing directly — the trace contains an
openTruncate of the final path and no rename at all — so the write is not
the claimed write-to-temp-then-rename atomic discipline. -/
theorem c4_counterexample :
    ¬ atomicTempRename
        (saveCheckpointTrace "/case/.adk_state" "2026-01-01T00:00:05")
        ("/case/.adk_state" ++ "/" ++ checkpointFilename "2026-01-01T00:00:05") := by
  intro h
  exact h.2 (by simp [saveCheckpointTrace])

/-- Claim C4, amended: every checkpoint save serializes the checkpoint to
a file keyed by a timestamp-derived identifier, but the write is not
atomic: the data is opened and written directly under the final
checkpoint filename, the trace contains no rename and no temporary file,
so a partially written checkpoint can be visible under a checkpoint
filename. -/
theorem c4_save_writes_directly (dir ts : String) :
    FsOp.openTruncate (dir ++ "/" ++ checkpointFilename ts) ∈ saveCheckpointTrace dir ts ∧
    FsOp.writeData (dir ++ "/" ++ checkpointFilename ts) ∈ saveCheckpointTrace dir ts ∧
    (∀ op ∈ saveCheckpointTrace dir ts, op.isRenameOp = false) ∧
    ¬ atomicTempRename (saveCheckpointTrace dir ts) (dir ++ "/" ++ checkpointFilename ts) := by
  refine ⟨by simp [saveCheckpointTrace], by simp [saveCheckpointTrace], ?_, ?_⟩
  · intro op hop
    simp only [saveCheckpointTrace, List.mem_cons, List.not_mem_nil, or_false] at hop
    rcases hop with h | h | h <;> subst h <;> rfl
  · intro h
    exact h.2 (by simp [saveCheckpointTrace])

/-- Claim C4, witness: the amended theorem applied at a concrete
directory and timestamp. -/
theorem c4_witness :
    (∀ op ∈ saveCheckpointTrace "/case/.adk_state" "2026-01-01T00:00:06",
      op.isRenameOp = false) ∧
    ¬ atomicTempRename
        (saveCheckpointTrace "/case/.adk_state" "2026-01-01T00:00:06")
        ("/case/.adk_state" ++ "/" ++ checkpointFilename "2026-01-01T00:00:06") :=
  ⟨(c4_save_writes_directly "/case/.adk_state" "2026-01-01T00:00:06").2.2.1,
   (c4_save_writes_directly "/case/.adk_state" "2026-01-01T00:00:06").2.2.2⟩

theorem runPipeline_unknown (m : SMState) (sid : String) (pid : Nat)
    (outcome : PipelineOutcome) (dur : ℚ) (h : assocGet m.active_sessions sid = none) :
    runPipeline m sid pid outcome dur = Except.error ("Sessao nao encontrada: " ++ sid) := by
  unfold runPipeline
  rw [h]

theorem runPipeline_known (m : SMState) (sid : String) (pid : Nat)
    (outcome : PipelineOutcome) (dur : ℚ) (sess : SessionInfo)
    (h : assocGet m.active_sessions sid = some sess) :
    ∃ m2 sum, runPipeline m sid pid outcome dur = Except.ok (m2, sum) := by
  unfold runPipeline
  rw [h]
  cases outcome with
  | finished success v c d s out ga gh => exact ⟨_, _, rfl⟩
  | raised msg => exact ⟨_, _, rfl⟩

/-- Claim C1, counterexample: a manager state with session s1 registered
and a pipeline currently registered for it (a run in progress); a second
run call for s1 is not rejected — it proceeds all the way to a normal
success summary. -/
theorem c1_counterexample :
    (assocGet
      (SMState.mk
        [("s1", SessionInfo.mk "s1" "case-7" "/cases/7" "2026-01-01T00:00:00" "active" none none)]
        [("s1", 1)]
        [("/cases/7", SessionInfo.mk "s1" "case-7" "/cases/7" "2026-01-01T00:00:00" "active" none none)]).pipelines
      "s1" = some 1) ∧
    ∃ m2 sum,
      runPipeline
        (SMState.mk
          [("s1", SessionInfo.mk "s1" "case-7" "/cases/7" "2026-01-01T00:00:00" "active" none none)]
          [("s1", 1)]
          [("/cases/7", SessionInfo.mk "s1" "case-7" "/cases/7" "2026-01-01T00:00:00" "active" none none)])
        "s1" 2
        (.finished true true true true true (some "/cases/7/drafts/out.md") false none) 0 =
        Except.ok (m2, sum) ∧
      sum.success = true := by
  exact ⟨rfl, _, _, rfl, rfl⟩

/-- Claim C1, amended: run rejects a call — by raising KeyError before
anything executes — exactly when the session id is absent from the
in-memory registry.  The pipelines map is never consulted on entry, so a
second run call for a session id whose pipeline is still registered (a
run in progress) is accepted and executed, overwriting the registration,
instead of being rejected. -/
theorem c1_run_rejects_only_unknown_session (m : SMState) (sid : String) (pid : Nat)
    (outcome : PipelineOutcome) (dur : ℚ) :
    ((∃ e, runPipeline m sid pid outcome dur = Except.error e) ↔
      assocGet m.active_sessions sid = none) ∧
    (∀ sess, assocGet m.active_sessions sid = some sess →
      ∃ m2 sum, runPipeline m sid pid outcome dur = Except.ok (m2, sum)) := by
  constructor
  · constructor
    · rintro ⟨e, he⟩
      rcases h : assocGet m.active_sessions sid with _ | sess
      · rfl
      · obtain ⟨m2, sum, hok⟩ := runPipeline_known m sid pid outcome dur sess h
        rw [hok] at he
        cases he
    · intro h
      exact ⟨_, runPipeline_unknown m sid pid outcome dur h⟩
  · intro sess h
    exact runPipeline_known m sid pid outcome dur sess h

/-- Claim C1, witness for the amended theorem: at a registry not
containing s9 the call is rejected, and at one containing s1 it
proceeds. -/
theorem c1_witness :
    (∃ e, runPipeline (SMState.mk [] [] []) "s9" 1 (.raised "boom") 0 = Except.error e) ∧
    ∃ m2 sum,
      runPipeline
        (SMState.mk
          [("s1", SessionInfo.mk "s1" "c" "/w" "t0" "active" none none)] [] [])
        "s1" 1 (.raised "boom") 0 = Except.ok (m2, sum) :=
  ⟨(c1_run_rejects_only_unknown_session (SMState.mk [] [] []) "s9" 1 (.raised "boom") 0).1.mpr rfl,
   (c1_run_rejects_only_unknown_session
      (SMState.mk [("s1", SessionInfo.mk "s1" "c" "/w" "t0" "active" none none)] [] [])
      "s1" 1 (.raised "boom") 0).2
     (SessionInfo.mk "s1" "c" "/w" "t0" "active" none none) rfl⟩

/-- Claim C9: for a registered session, an exception raised inside run's
try-block is caught at the boundary: the session's status becomes error
both in the registry and in the persisted descriptor file, the pipeline
registration is cleaned up, and the caller receives a normal failure
summary (success = false, carrying the message) rather than the
exception. -/
theorem c9_run_exception_caught (m : SMState) (sid : String) (pid : Nat) (e : String)
    (dur : ℚ) (sess : SessionInfo) (h : assocGet m.active_sessions sid = some sess) :
    ∃ m2 sum, runPipeline m sid pid (.raised e) dur = Except.ok (m2, sum) ∧
      sum.success = false ∧
      sum.error = some e ∧
      sum.phases_completed = [] ∧
      assocGet m2.active_sessions sid = some { sess with status := "error" } ∧
      assocGet m2.session_files sess.case_path = some { sess with status := "error" } ∧
      assocGet m2.pipelines sid = none := by
  unfold runPipeline
  rw [h]
  refine ⟨_, _, rfl, rfl, rfl, rfl, ?_, ?_, ?_⟩
  · exact assocGet_assocPut_self m.active_sessions sid { sess with status := "error" }
  · exact assocGet_assocPut_self m.session_files sess.case_path { sess with status := "error" }
  · exact assocGet_assocDel_self (assocPut m.pipelines sid pid) sid

/-- Claim C9, witness: the theorem applied at a concrete registry holding
session s2. -/
theorem c9_witness :
    ∃ m2 sum,
      runPipeline
        (SMState.mk
          [("s2", SessionInfo.mk "s2" "c2" "/w2" "t0" "active" none none)] [("s2", 7)] [])
        "s2" 8 (.raised "disk full") 1 = Except.ok (m2, sum) ∧
      sum.success = false ∧
      sum.error = some "disk full" ∧
      sum.phases_completed = [] ∧
      assocGet m2.active_sessions "s2" =
        some (SessionInfo.mk "s2" "c2" "/w2" "t0" "error" none none) ∧
      assocGet m2.session_files "/w2" =
        some (SessionInfo.mk "s2" "c2" "/w2" "t0" "error" none none) ∧
      assocGet m2.pipelines "s2" = none :=
  c9_run_exception_caught
    (SMState.mk [("s2", SessionInfo.mk "s2" "c2" "/w2" "t0" "active" none none)] [("s2", 7)] [])
    "s2" 8 "disk full" 1 (SessionInfo.mk "s2" "c2" "/w2" "t0" "active" none none) rfl

/-- Claim C10: GitStateBackend.commit is a total Option-valued function —
every failing subprocess path is caught — returning the new commit hash
exactly when git is available, there are staged changes after add, and
the commit command itself succeeds; in every other case (unavailable,
nothing to commit, command failure) it returns None, so those outcomes
are indistinguishable by the return value alone. -/
theorem c10_commit_hash_iff (env : GitEnv) (msg : String) (auto : Bool)
    (phase : Option String) :
    ((∃ h, gitCommit env msg auto phase = some h) ↔
      (env.available = true ∧ env.has_changes_after_add = true ∧
        (env.commit_cmd (commitMessage msg auto phase)).isSome = true)) ∧
    (env.available = false → gitCommit env msg auto phase = none) ∧
    (env.has_changes_after_add = false → gitCommit env msg auto phase = none) ∧
    (env.commit_cmd (commitMessage msg auto phase) = none →
      gitCommit env msg auto phase = none) := by
  unfold gitCommit gitHasChanges
  rcases ha : env.available with _ | _ <;>
    rcases hc : env.has_changes_after_add with _ | _ <;>
      rcases hr : env.commit_cmd (commitMessage msg auto phase) with _ | hsh <;>
        simp [ha, hc, hr]

/-- Claim C10, witness: the success case yields the head hash, and each
of the three None cases yields None. -/
theorem c10_witness :
    (∃ h, gitCommit (GitEnv.mk true true (fun _ => some "deadbeef")) "m" true (some "init") =
      some h) ∧
    gitCommit (GitEnv.mk false true (fun _ => some "deadbeef")) "m" false none = none ∧
    gitCommit (GitEnv.mk true false (fun _ => some "deadbeef")) "m" false none = none ∧
    gitCommit (GitEnv.mk true true (fun _ => none)) "m" false none = none :=
  ⟨(c10_commit_hash_iff (GitEnv.mk true true (fun _ => some "deadbeef")) "m" true
      (some "init")).1.mpr ⟨rfl, rfl, rfl⟩,
   (c10_commit_hash_iff (GitEnv.mk false true (fun _ => some "deadbeef")) "m" false none).2.1 rfl,
   (c10_commit_hash_iff (GitEnv.mk true false (fun _ => some "deadbeef")) "m" false none).2.2.1 rfl,
   (c10_commit_hash_iff (GitEnv.mk true true (fun _ => none)) "m" false none).2.2.2 rfl⟩

/-! ## Debate convergence (C2) -/

theorem upperChar_not_lower (c : Char) : isLowerAscii (upperChar c) = false := by
  unfold upperChar
  by_cases h : 97 ≤ c.toNat ∧ c.toNat ≤ 122
  · rw [if_pos h]
    obtain ⟨h1, h2⟩ := h
    generalize hn : c.toNat = n at h1 h2
    interval_cases n <;> decide
  · rw [if_neg h]
    simp only [isLowerAscii, Bool.and_eq_false_iff, decide_eq_false_iff_not]
    omega

theorem mem_of_leadsWith (n : List Char) :
    ∀ hay : List Char, leadsWith n hay = true → ∀ c ∈ n, c ∈ hay := by
  induction n with
  | nil => intro hay _ c hc; cases hc
  | cons a as ih =>
    intro hay hl c hc
    cases hay with
    | nil => simp [leadsWith] at hl
    | cons b bs =>
      simp only [leadsWith, Bool.and_eq_true, decide_eq_true_eq] at hl
      rcases List.mem_cons.mp hc with rfl | hc2
      · exact List.mem_cons.mpr (Or.inl hl.1)
      · exact List.mem_cons.mpr (Or.inr (ih bs hl.2 c hc2))

theorem mem_of_containsSub (n : List Char) :
    ∀ hay : List Char, containsSub n hay = true → ∀ c ∈ n, c ∈ hay := by
  intro hay
  induction hay with
  | nil =>
    intro hs c hc
    cases n with
    | nil => cases hc
    | cons a as => simp [containsSub, leadsWith] at hs
  | cons b bs ih =>
    intro hs c hc
    simp only [containsSub, Bool.or_eq_true] at hs
    rcases hs with h1 | h2
    · exact mem_of_leadsWith n (b :: bs) h1 c hc
    · exact List.mem_cons_of_mem b (ih h2 c hc)

theorem no_lower_in_upperStr (s : String) :
    ∀ c ∈ (upperStr s).data, isLowerAscii c = false := by
  intro c hc
  have hd : (upperStr s).data = s.data.map upperChar := rfl
  rw [hd] at hc
  obtain ⟨d, _, rfl⟩ := List.mem_map.mp hc
  exact upperChar_not_lower d

/-- The two lowercase indicators at agent.py line 614 can never match:
adversarial_output.upper() contains no ASCII lowercase character, so the
whole approval test is equivalent to case-insensitive presence of the
designated marker APROVADO. -/
theorem approvalSignal_eq_containsMarkerCI (s : String) :
    approvalSignal s = containsMarkerCI s := by
  unfold approvalSignal containsMarkerCI
  have dead : ∀ n : List Char, ('a' : Char) ∈ n →
      containsSub n (upperStr s).data = false := by
    intro n ha
    rcases hq : containsSub n (upperStr s).data with _ | _
    · rfl
    · exfalso
      have hmem := mem_of_containsSub n (upperStr s).data hq 'a' ha
      have := no_lower_in_upperStr s 'a' hmem
      exact absurd this (by decide)
  rw [dead "approved".data (by decide), dead "aprovado".data (by decide)]
  simp

theorem debateGo_no_approval (names : String × String) (cons adv : Nat → String) :
    ∀ (remaining : Nat), 0 < remaining →
    ∀ (i : Nat) (r : DebateResult) (last : String),
      (∀ j, i ≤ j → j < i + remaining → approvalSignal (adv j) = false) →
      ∃ r2, debateGo names cons adv i remaining r last = (r2, cons (i + remaining - 1)) ∧
        r2.iterations = i + remaining - 1 ∧
        r2.converged = r.converged ∧
        r2.exit_reason = r.exit_reason ∧
        r2.phase = r.phase := by
  intro remaining
  induction remaining with
  | zero => intro h; omega
  | succ rem ih =>
    intro _ i r last hnone
    have hi : approvalSignal (adv i) = false := hnone i le_rfl (by omega)
    rcases Nat.eq_zero_or_pos rem with hz | hp
    · subst hz
      simp only [debateGo, hi, Bool.false_eq_true, if_false]
      exact ⟨_, rfl, by simp [debateGo, debateRound], by simp [debateGo, debateRound],
        by simp [debateGo, debateRound], by simp [debateGo, debateRound]⟩
    · simp only [debateGo, hi, Bool.false_eq_true, if_false]
      obtain ⟨r2, heq, hit, hconv, hex, hph⟩ :=
        ih hp (i + 1) (debateRound names cons adv i r) (cons i)
          (fun j hj1 hj2 => hnone j (by omega) (by omega))
      refine ⟨r2, ?_, ?_, ?_, ?_, ?_⟩
      · have harg : i + 1 + rem - 1 = i + (rem + 1) - 1 := by omega
        rw [heq, harg]
      · rw [hit]; omega
      · rw [hconv]; rfl
      · rw [hex]; rfl
      · rw [hph]; rfl

theorem debateGo_approval (names : String × String) (cons adv : Nat → String) :
    ∀ (remaining i k : Nat) (r : DebateResult) (last : String),
      i ≤ k → k < i + remaining →
      approvalSignal (adv k) = true →
      (∀ j, i ≤ j → j < k → approvalSignal (adv j) = false) →
      ∃ r2, debateGo names cons adv i remaining r last = (r2, cons k) ∧
        r2.iterations = k ∧ r2.converged = true ∧ r2.exit_reason = "approved" ∧
        r2.phase = r.phase := by
  intro remaining
  induction remaining with
  | zero => intro i k r last h1 h2; omega
  | succ rem ih =>
    intro i k r last hik hk happ hmin
    by_cases hki : k = i
    · subst hki
      simp only [debateGo, happ, if_true]
      exact ⟨_, rfl, rfl, rfl, rfl, rfl⟩
    · have hlt : i < k := lt_of_le_of_ne hik (fun h => hki h.symm)
      have hi : approvalSignal (adv i) = false := hmin i le_rfl hlt
      simp only [debateGo, hi, Bool.false_eq_true, if_false]
      obtain ⟨r2, heq, hit, hconv, hex, hph⟩ :=
        ih (i + 1) k (debateRound names cons adv i r) (cons i)
          (by omega) (by omega) happ (fun j hj1 hj2 => hmin j (by omega) hj2)
      exact ⟨r2, heq, hit, hconv, hex, by rw [hph]; rfl⟩

/-- Claim C2: for any debate with maxDebateIterations ≥ 1 and any
round-by-round actor outputs, if round k (1 ≤ k ≤ maxDebateIterations) is
the first whose adversarial output contains the approval marker APROVADO
case-insensitively, the result has iterations = k, converged = true,
exitReason = "approved" and finalOutput = the round-k constructive
output; if no round's adversarial output contains the marker, the result
has iterations = maxDebateIterations, converged = false, exitReason =
"max_iterations" and finalOutput = the last constructive output. -/
theorem c2_debate_convergence (phase : String) (names : String × String) (maxIter : Nat)
    (cons adv : Nat → String) (hmax : 1 ≤ maxIter) :
    (∀ k, 1 ≤ k → k ≤ maxIter → containsMarkerCI (adv k) = true →
      (∀ j, 1 ≤ j → j < k → containsMarkerCI (adv j) = false) →
      ((runDebate phase names maxIter cons adv).iterations = k ∧
       (runDebate phase names maxIter cons adv).converged = true ∧
       (runDebate phase names maxIter cons adv).exit_reason = "approved" ∧
       (runDebate phase names maxIter cons adv).final_output = cons k)) ∧
    ((∀ k, 1 ≤ k → k ≤ maxIter → containsMarkerCI (adv k) = false) →
      ((runDebate phase names maxIter cons adv).iterations = maxIter ∧
       (runDebate phase names maxIter cons adv).converged = false ∧
       (runDebate phase names maxIter cons adv).exit_reason = "max_iterations" ∧
       (runDebate phase names maxIter cons adv).final_output = cons maxIter)) := by
  constructor
  · intro k hk1 hk2 happ hmin
    obtain ⟨r2, heq, hit, hconv, hex, _⟩ :=
      debateGo_approval names cons adv maxIter 1 k (initDebateResult phase) ""
        hk1 (by omega) (by rw [approvalSignal_eq_containsMarkerCI]; exact happ)
        (fun j hj1 hj2 => by
          rw [approvalSignal_eq_containsMarkerCI]; exact hmin j hj1 hj2)
    unfold runDebate
    rw [heq]
    unfold finishDebate
    rw [hconv, if_pos rfl]
    exact ⟨hit, hconv, hex, rfl⟩
  · intro hnone
    obtain ⟨r2, heq, hit, hconv, hex, _⟩ :=
      debateGo_no_approval names cons adv maxIter (by omega) 1 (initDebateResult phase) ""
        (fun j hj1 hj2 => by
          rw [approvalSignal_eq_containsMarkerCI]; exact hnone j hj1 (by omega))
    unfold runDebate
    rw [heq]
    unfold finishDebate
    have hc0 : r2.converged = false := by rw [hconv]; rfl
    rw [hc0, if_neg (by decide)]
    have harg : 1 + maxIter - 1 = maxIter := by omega
    refine ⟨?_, hc0, rfl, ?_⟩
    · show r2.iterations = maxIter
      rw [hit]
      omega
    · show cons (1 + maxIter - 1) = cons maxIter
      rw [harg]

/-- Claim C2, witness: the two test vectors of the specification —
adversarial outputs (needs work, needs work, APROVADO, tudo certo) with
cap 3 converge at round 3, and (no, no) with cap 2 exhaust. -/
theorem c2_witness :
    ((runDebate "verification" ("construtor", "cetico") 3
        (fun i => "draft " ++ toString i)
        (fun i => if i = 3 then "APROVADO, tudo certo" else "needs work")).iterations = 3 ∧
     (runDebate "verification" ("construtor", "cetico") 3
        (fun i => "draft " ++ toString i)
        (fun i => if i = 3 then "APROVADO, tudo certo" else "needs work")).converged = true ∧
     (runDebate "verification" ("construtor", "cetico") 3
        (fun i => "draft " ++ toString i)
        (fun i => if i = 3 then "APROVADO, tudo certo" else "needs work")).exit_reason =
       "approved" ∧
     (runDebate "verification" ("construtor", "cetico") 3
        (fun i => "draft " ++ toString i)
        (fun i => if i = 3 then "APROVADO, tudo certo" else "needs work")).final_output =
       (fun i => "draft " ++ toString i) 3) ∧
    ((runDebate "thesis" ("construtor", "critico") 2
        (fun i => "thesis " ++ toString i) (fun _ => "no")).iterations = 2 ∧
     (runDebate "thesis" ("construtor", "critico") 2
        (fun i => "thesis " ++ toString i) (fun _ => "no")).converged = false ∧
     (runDebate "thesis" ("construtor", "critico") 2
        (fun i => "thesis " ++ toString i) (fun _ => "no")).exit_reason = "max_iterations" ∧
     (runDebate "thesis" ("construtor", "critico") 2
        (fun i => "thesis " ++ toString i) (fun _ => "no")).final_output =
       (fun i => "thesis " ++ toString i) 2) :=
  ⟨(c2_debate_convergence "verification" ("construtor", "cetico") 3
      (fun i => "draft " ++ toString i)
      (fun i => if i = 3 then "APROVADO, tudo certo" else "needs work") (by decide)).1
      3 (by decide) (by decide) (by decide)
      (by intro j h1 h2; interval_cases j <;> decide),
   (c2_debate_convergence "thesis" ("construtor", "critico") 2
      (fun i => "thesis " ++ toString i) (fun _ => "no") (by decide)).2
      (by intro k h1 h2; interval_cases k <;> decide)⟩

/-! ## Lexicographic order facts for checkpoint filenames (C5) -/

theorem charsLt_irrefl (l : List Char) : charsLt l l = false := by
  induction l with
  | nil => rfl
  | cons a as ih => simp [charsLt, lt_irrefl, ih]

theorem charsLt_cons (x y : Char) (xs ys : List Char) :
    charsLt (x :: xs) (y :: ys) =
      if x < y then true else if y < x then false else charsLt xs ys := rfl

theorem charsLt_trans (a : List Char) :
    ∀ b c : List Char, charsLt a b = true → charsLt b c = true → charsLt a c = true := by
  induction a with
  | nil =>
    intro b c hab hbc
    cases b with
    | nil => simp [charsLt] at hab
    | cons y ys =>
      cases c with
      | nil => simp [charsLt] at hbc
      | cons z zs => rfl
  | cons x xs ih =>
    intro b c hab hbc
    cases b with
    | nil => simp [charsLt] at hab
    | cons y ys =>
      cases c with
      | nil => simp [charsLt] at hbc
      | cons z zs =>
        rw [charsLt_cons] at hab hbc ⊢
        rcases lt_trichotomy x y with hxy | hxy | hxy
        · rcases lt_trichotomy y z with hyz | hyz | hyz
          · rw [if_pos (lt_trans hxy hyz)]
          · subst hyz
            rw [if_pos hxy]
          · rw [if_neg (lt_asymm hyz), if_pos hyz] at hbc
            exact absurd hbc Bool.false_ne_true
        · subst hxy
          rw [if_neg (lt_irrefl x), if_neg (lt_irrefl x)] at hab
          rcases lt_trichotomy x z with hxz | hxz | hxz
          · rw [if_pos hxz]
          · subst hxz
            rw [if_neg (lt_irrefl x), if_neg (lt_irrefl x)] at hbc
            rw [if_neg (lt_irrefl x), if_neg (lt_irrefl x)]
            exact ih ys zs hab hbc
          · rw [if_neg (lt_asymm hxz), if_pos hxz] at hbc
            exact absurd hbc Bool.false_ne_true
        · rw [if_neg (lt_asymm hxy), if_pos hxy] at hab
          exact absurd hab Bool.false_ne_true

theorem charsLt_conn (a : List Char) :
    ∀ b : List Char, charsLt a b = false → charsLt b a = false → a = b := by
  induction a with
  | nil =>
    intro b hab _
    cases b with
    | nil => rfl
    | cons y ys => simp [charsLt] at hab
  | cons x xs ih =>
    intro b hab hba
    cases b with
    | nil => simp [charsLt] at hba
    | cons y ys =>
      rw [charsLt_cons] at hab hba
      rcases lt_trichotomy x y with hxy | hxy | hxy
      · rw [if_pos hxy] at hab
        exact absurd hab (by decide)
      · subst hxy
        rw [if_neg (lt_irrefl x), if_neg (lt_irrefl x)] at hab hba
        rw [ih ys hab hba]
      · rw [if_pos hxy] at hba
        exact absurd hba (by decide)

theorem charsLt_append_same_left (p : List Char) (a b : List Char) :
    charsLt (p ++ a) (p ++ b) = charsLt a b := by
  induction p with
  | nil => rfl
  | cons x xs ih => simp [charsLt, lt_irrefl, ih]

theorem charsLt_append_same_right (a : List Char) :
    ∀ b c : List Char, a.length = b.length → charsLt (a ++ c) (b ++ c) = charsLt a b := by
  induction a with
  | nil =>
    intro b c hlen
    cases b with
    | nil => simpa [charsLt] using charsLt_irrefl c
    | cons y ys => simp at hlen
  | cons x xs ih =>
    intro b c hlen
    cases b with
    | nil => simp at hlen
    | cons y ys =>
      simp only [List.length_cons, Nat.succ_inj] at hlen
      rw [List.cons_append, List.cons_append, charsLt_cons, charsLt_cons, ih ys c hlen]

theorem colonsAligned_length (a : List Char) :
    ∀ b : List Char, colonsAligned a b = true → a.length = b.length := by
  induction a with
  | nil =>
    intro b h
    cases b with
    | nil => rfl
    | cons y ys => cases h
  | cons x xs ih =>
    intro b h
    cases b with
    | nil => cases h
    | cons y ys =>
      simp only [colonsAligned, Bool.and_eq_true] at h
      simp [ih ys h.2]

theorem charsLt_map_colon (a : List Char) :
    ∀ b : List Char, colonsAligned a b = true →
      charsLt (a.map colonMap) (b.map colonMap) = charsLt a b := by
  induction a with
  | nil =>
    intro b h
    cases b with
    | nil => rfl
    | cons y ys => cases h
  | cons x xs ih =>
    intro b h
    cases b with
    | nil => cases h
    | cons y ys =>
      simp only [colonsAligned, Bool.and_eq_true, beq_iff_eq] at h
      obtain ⟨hxy, hrest⟩ := h
      simp only [List.map_cons, charsLt]
      by_cases hx : x = ':'
      · have hy : y = ':' := by
          by_contra hy
          simp [hx, hy] at hxy
        subst hx
        subst hy
        simp [colonMap, lt_irrefl, ih ys hrest]
      · have hy : y ≠ ':' := by
          by_contra hy
          simp [hx, hy] at hxy
        rw [show colonMap x = x from if_neg hx, show colonMap y = y from if_neg hy,
          ih ys hrest]

theorem replaceChar_colon_data (s : String) :
    (replaceChar ':' '-' s).data = s.data.map colonMap := rfl

theorem strLt_checkpointFilename (s t : String)
    (hal : colonsAligned s.data t.data = true) :
    strLt (checkpointFilename s) (checkpointFilename t) = strLt s t := by
  unfold strLt checkpointFilename
  rw [String.data_append, String.data_append, String.data_append, String.data_append,
    List.append_assoc, List.append_assoc, charsLt_append_same_left,
    replaceChar_colon_data, replaceChar_colon_data,
    charsLt_append_same_right _ _ _ (by simp [colonsAligned_length s.data t.data hal]),
    charsLt_map_colon _ _ hal]

theorem strLt_irrefl (s : String) : strLt s s = false := charsLt_irrefl s.data

theorem strLt_trans (a b c : String) (h1 : strLt a b = true) (h2 : strLt b c = true) :
    strLt a c = true := charsLt_trans a.data b.data c.data h1 h2

theorem strLt_conn (a b : String) (h1 : strLt a b = false) (h2 : strLt b a = false) :
    a = b := by
  have h := charsLt_conn a.data b.data h1 h2
  cases a
  cases b
  exact congrArg String.mk h

theorem strLt_false_of_false_of_false (r b x : String)
    (h1 : strLt r b = false) (h2 : strLt b x = false) : strLt r x = false := by
  rcases h : strLt r x with _ | _
  · rfl
  · exfalso
    rcases h3 : strLt x b with _ | _
    · have hbe : b = x := strLt_conn b x h2 h3
      rw [hbe] at h1
      rw [h] at h1
      exact absurd h1 (by decide)
    · have h4 := strLt_trans r x b h h3
      rw [h4] at h1
      exact absurd h1 (by decide)

theorem strLt_false_of_false_of_lt (r b x : String)
    (h1 : strLt r x = false) (h2 : strLt b x = true) : strLt r b = false := by
  rcases h : strLt r b with _ | _
  · rfl
  · exfalso
    have h4 := strLt_trans r b x h h2
    rw [h4] at h1
    exact absurd h1 (by decide)

theorem foldMax_spec (es : List (String × Checkpoint)) :
    ∀ b : String,
      ((es.foldl (fun best x => if strLt best x.1 then x.1 else best) b) = b ∨
        (es.foldl (fun best x => if strLt best x.1 then x.1 else best) b) ∈
          es.map Prod.fst) ∧
      strLt (es.foldl (fun best x => if strLt best x.1 then x.1 else best) b) b = false ∧
      (∀ g ∈ es.map Prod.fst,
        strLt (es.foldl (fun best x => if strLt best x.1 then x.1 else best) b) g = false) := by
  induction es with
  | nil =>
    intro b
    exact ⟨Or.inl rfl, strLt_irrefl b, by simp⟩
  | cons x es ih =>
    intro b
    simp only [List.foldl_cons, List.map_cons]
    rcases hbx : strLt b x.1 with _ | _
    · simp only [Bool.false_eq_true, if_false]
      obtain ⟨hmem, hb, hall⟩ := ih b
      refine ⟨?_, hb, ?_⟩
      · rcases hmem with h | h
        · exact Or.inl h
        · exact Or.inr (List.mem_cons_of_mem _ h)
      · intro g hg
        rcases List.mem_cons.mp hg with rfl | hg2
        · exact strLt_false_of_false_of_false _ b _ hb hbx
        · exact hall g hg2
    · simp only [if_true]
      obtain ⟨hmem, hb, hall⟩ := ih x.1
      refine ⟨?_, ?_, ?_⟩
      · rcases hmem with h | h
        · exact Or.inr (List.mem_cons.mpr (Or.inl h))
        · exact Or.inr (List.mem_cons_of_mem _ h)
      · exact strLt_false_of_false_of_lt _ b _ hb hbx
      · intro g hg
        rcases List.mem_cons.mp hg with rfl | hg2
        · exact hb
        · exact hall g hg2

theorem maxFilename_spec (store : CheckpointDir) (hne : store ≠ []) :
    ∃ fn, maxFilename store = some fn ∧ fn ∈ store.map Prod.fst ∧
      ∀ g ∈ store.map Prod.fst, strLt fn g = false := by
  cases store with
  | nil => exact absurd rfl hne
  | cons e es =>
    obtain ⟨hmem, hb, hall⟩ := foldMax_spec es e.1
    refine ⟨_, rfl, ?_, ?_⟩
    · rcases hmem with h | h
      · rw [h]
        exact List.mem_cons.mpr (Or.inl rfl)
      · exact List.mem_cons_of_mem _ h
    · intro g hg
      rcases List.mem_cons.mp hg with rfl | hg2
      · exact hb
      · exact hall g hg2

/-- Claim C5, counterexample: save a checkpoint at the exact-second
timestamp 2026-01-01T00:00:05 (datetime.isoformat() omits zero
microseconds) and then one a microsecond later at
2026-01-01T00:00:05.000001.  The second timestamp is strictly greater,
yet load_latest_checkpoint returns the first checkpoint, because
".json" sorts after ".000001.json" in the filename comparison — so the
loaded checkpoint is not the one with the greatest timestamp. -/
theorem c5_counterexample :
    (saveCheckpoint (saveCheckpoint (initLC 5 1) "2026-01-01T00:00:05")
        "2026-01-01T00:00:05.000001").store.map (fun e => e.2.timestamp) =
      ["2026-01-01T00:00:05", "2026-01-01T00:00:05.000001"] ∧
    strLt "2026-01-01T00:00:05" "2026-01-01T00:00:05.000001" = true ∧
    (loadLatestCheckpoint
        (saveCheckpoint (saveCheckpoint (initLC 5 1) "2026-01-01T00:00:05")
          "2026-01-01T00:00:05.000001")).map (fun p => p.2.timestamp) =
      some "2026-01-01T00:00:05" := by
  refine ⟨by decide, by decide, by decide⟩

/-- Claim C5, amended: over checkpoint files written by _save_checkpoint
(filenames derived from their timestamps, distinct names) whose
timestamps are mutually colon-aligned and of equal length — as holds
whenever all timestamps carry the same precision, e.g. all include
microseconds — load_latest_checkpoint returns none for an empty store,
and otherwise loads exactly the persisted checkpoint with the greatest
timestamp, restoring iteration, phase and stateData verbatim (the
round-trip law).  Without the equal-precision assumption the greatest
filename can disagree with the greatest timestamp (see the
counterexample). -/
theorem c5_load_latest_max_timestamp (c : LC)
    (hfn : ∀ e ∈ c.store, e.1 = checkpointFilename e.2.timestamp)
    (hnd : (c.store.map Prod.fst).Nodup)
    (hal : ∀ e ∈ c.store, ∀ e2 ∈ c.store,
      colonsAligned e.2.timestamp.data e2.2.timestamp.data = true) :
    (c.store = [] → loadLatestCheckpoint c = none) ∧
    (c.store ≠ [] →
      ∃ c2 cp, loadLatestCheckpoint c = some (c2, cp) ∧
        (checkpointFilename cp.timestamp, cp) ∈ c.store ∧
        (∀ e ∈ c.store, strLt cp.timestamp e.2.timestamp = false) ∧
        c2.current_iteration = cp.iteration ∧
        c2.current_phase = cp.phase ∧
        c2.state_data = cp.state_data ∧
        c2.last_checkpoint = some cp) := by
  constructor
  · intro hempty
    unfold loadLatestCheckpoint
    rw [hempty]
    rfl
  · intro hne
    obtain ⟨fn, hmax, hfmem, hall⟩ := maxFilename_spec c.store hne
    obtain ⟨en, henmem, henfn⟩ := List.mem_map.mp hfmem
    have hpair : (fn, en.2) ∈ c.store := by
      rw [← henfn]
      exact henmem
    have hread : dirRead c.store fn = some en.2 :=
      assocGet_of_mem_nodup c.store fn en.2 hnd hpair
    have hfns : fn = checkpointFilename en.2.timestamp := by
      rw [← henfn]
      exact hfn en henmem
    refine ⟨{ c with
        current_iteration := en.2.iteration
        current_phase := en.2.phase
        state_data := en.2.state_data
        last_checkpoint := some en.2 }, en.2, ?_, ?_, ?_, rfl, rfl, rfl, rfl⟩
    · unfold loadLatestCheckpoint loadCheckpoint
      rw [hmax]
      dsimp only
      rw [hread]
    · rw [← hfns]
      exact hpair
    · intro e hemem
      rcases hts : strLt en.2.timestamp e.2.timestamp with _ | _
      · rfl
      · exfalso
        have halpair := hal en henmem e hemem
        have hfnlt : strLt (checkpointFilename en.2.timestamp)
            (checkpointFilename e.2.timestamp) = true := by
          rw [strLt_checkpointFilename _ _ halpair]
          exact hts
        have hmaxe : strLt fn e.1 = false :=
          hall e.1 (List.mem_map.mpr ⟨e, hemem, rfl⟩)
        rw [hfns, hfn e hemem] at hmaxe
        rw [hfnlt] at hmaxe
        cases hmaxe

/-- Claim C5, witness for the amended theorem: two persisted checkpoints
with full-precision timestamps; the loader returns the later one and the
round-trip equalities hold. -/
theorem c5_witness :
    ∃ c2 cp,
      loadLatestCheckpoint
        (saveCheckpoint (saveCheckpoint (startLC (initLC 5 1)) "2026-01-01T00:00:05.000001")
          "2026-01-01T00:00:06.000002") = some (c2, cp) ∧
      (checkpointFilename cp.timestamp, cp) ∈
        (saveCheckpoint (saveCheckpoint (startLC (initLC 5 1)) "2026-01-01T00:00:05.000001")
          "2026-01-01T00:00:06.000002").store ∧
      (∀ e ∈ (saveCheckpoint (saveCheckpoint (startLC (initLC 5 1)) "2026-01-01T00:00:05.000001")
          "2026-01-01T00:00:06.000002").store,
        strLt cp.timestamp e.2.timestamp = false) ∧
      c2.current_iteration = cp.iteration ∧
      c2.current_phase = cp.phase ∧
      c2.state_data = cp.state_data ∧
      c2.last_checkpoint = some cp :=
  (c5_load_latest_max_timestamp
    (saveCheckpoint (saveCheckpoint (startLC (initLC 5 1)) "2026-01-01T00:00:05.000001")
      "2026-01-01T00:00:06.000002")
    (by decide) (by decide) (by decide)).2 (by decide)

end LegalPipeline



